import Mathlib

/-!
Shallow embedding of the adam controller core: the certificate-generation
CLI commands (`cmd` package, `generate onboard` / `generate device`) and the
per-device storage aggregate with its attestation data model
(`pkg/driver/common/common.go`).  Go byte slices are represented as
`List UInt8`, Go strings as `String`, nil-able pointers/interfaces/maps as
`Option`, and Go's `(value, error)` returns as explicit pairs with
`Option String` standing for `error` (the `error`'s message string).
-/

set_option autoImplicit false

namespace Adam

abbrev Bytes := List UInt8

/-- Stand-in for `crypto/x509.Certificate`: the sources never inspect its
fields, only store and compare the pointer, so we keep the raw bytes. -/
structure Certificate where
  raw : Bytes
deriving DecidableEq

/-- Stand-in for `github.com/satori/go.uuid`'s `UUID`, a 16-byte value.  We
keep the bytes as a list; `uuidString` below formats the first 16 bytes the
way `UUID.String()` does. -/
structure UUID where
  bytes : List UInt8
deriving DecidableEq

/-- Lower-case hexadecimal digit, as used by `UUID.String()`. -/
def hexDigitChar : Nat → Char
  | 0 => '0' | 1 => '1' | 2 => '2' | 3 => '3' | 4 => '4'
  | 5 => '5' | 6 => '6' | 7 => '7' | 8 => '8' | 9 => '9'
  | 10 => 'a' | 11 => 'b' | 12 => 'c' | 13 => 'd' | 14 => 'e'
  | _ => 'f'

/-- Two lower-case hex digits of one byte. -/
def byteHex (b : UInt8) : String :=
  ⟨[hexDigitChar (b.toNat / 16), hexDigitChar (b.toNat % 16)]⟩

/-- Hex rendering of a byte list. -/
def bytesHex (l : List UInt8) : String :=
  String.join (l.map byteHex)

/-- The canonical `8-4-4-4-12` textual form of a UUID, as produced by
`satori/go.uuid`'s `String()` (used by `fmt`'s `%s` verb in error messages
and by `CreateBaseConfig`). -/
def uuidString (u : UUID) : String :=
  let bs := u.bytes
  bytesHex (bs.take 4) ++ "-" ++ bytesHex ((bs.drop 4).take 2) ++ "-" ++
    bytesHex ((bs.drop 6).take 2) ++ "-" ++ bytesHex ((bs.drop 8).take 2) ++ "-" ++
    bytesHex ((bs.drop 10).take 6)

/-!  CN sanitization (`cmd` package, `generate onboard` / `generate device`).

The Go code compiles the regular expression from the raw string literal
`[^a-zA-Z0-9\\.\\-]` and replaces every match with `_`.  Inside a Go raw
(backquoted) string, `\\` is two characters, so the character class the
regexp engine sees is: `a`-`z`, `A`-`Z`, `0`-`9`, the literal backslash
(from `\\`), the literal dot, the literal backslash again, and the literal
hyphen.  A character is replaced exactly when it is outside that class. -/

/-- Membership in the character class of the Go regexp `[^a-zA-Z0-9\\.\\-]`
(the characters that are kept by the sanitizer). -/
def cnKeepChar (c : Char) : Bool :=
  ('a' ≤ c && c ≤ 'z') || ('A' ≤ c && c ≤ 'Z') || ('0' ≤ c && c ≤ '9') ||
    c = '\\' || c = '.' || c = '-'

/-- Per-character action of `re.ReplaceAllString(cn, "_")`. -/
def squashChar (c : Char) : Char :=
  if cnKeepChar c then c else '_'

/-- The `cnSquashed` computation shared by the onboard and device generate
commands: every character outside the class is replaced by `_`. -/
def squashCN (cn : String) : String :=
  ⟨cn.data.map squashChar⟩

/-!  Model of Go's `path.Join` (pure lexical path algebra, `path` package).
`Join` concatenates the non-empty elements with `/` and applies `Clean`.
`Clean` is modelled by the standard equivalent element-stack algorithm:
split on `/`, drop empty and `.` elements, let `..` pop a previous element
(kept at the root, dropped for rooted paths). -/

/-- Split a character list at every `/` (boundaries produce empty groups,
like Go's `strings.Split` on `/`). -/
def splitSlash : List Char → List (List Char)
  | [] => [[]]
  | '/' :: rest => [] :: splitSlash rest
  | c :: rest =>
    match splitSlash rest with
    | [] => [[c]]
    | g :: gs => (c :: g) :: gs

/-- Interleave `/` between groups. -/
def joinSlash : List (List Char) → List Char
  | [] => []
  | [g] => g
  | g :: gs => g ++ '/' :: joinSlash gs

/-- Element-stack pass of `path.Clean`: `acc` is the reversed stack of kept
elements. -/
def cleanElems (rooted : Bool) : List (List Char) → List (List Char) → List (List Char)
  | [], acc => acc.reverse
  | e :: rest, acc =>
    if e = [] ∨ e = ['.'] then cleanElems rooted rest acc
    else if e = ['.', '.'] then
      (match acc with
       | [] => if rooted then cleanElems rooted rest [] else cleanElems rooted rest [['.', '.']]
       | a :: as =>
         if a = ['.', '.'] then cleanElems rooted rest (['.', '.'] :: a :: as)
         else cleanElems rooted rest as)
    else cleanElems rooted rest (e :: acc)

/-- Go `path.Clean`. -/
def pathClean (p : String) : String :=
  if p = "" then "."
  else
    let rooted : Bool := match p.data with | '/' :: _ => true | _ => false
    let body := joinSlash (cleanElems rooted (splitSlash p.data) [])
    if rooted then ⟨'/' :: body⟩
    else if body = [] then "." else ⟨body⟩

/-- Go `path.Join` restricted to two elements, as used by the generate
commands. -/
def pathJoin (a b : String) : String :=
  if a = "" ∧ b = "" then ""
  else if a = "" then pathClean b
  else pathClean (a ++ "/" ++ b)

/-!  The `generate onboard` / `generate device` commands (`cmd` package).

`os.Stat` is modelled by a function from paths to `Option FileInfo`
(`none` = `Stat` returned an error, i.e. the path does not exist);
`x509.Generate` is modelled by an arbitrary function from its argument
tuple to an `Option String` error, and each command's `Run` returns the
trace of `x509.Generate` calls it performed together with the
`log.Fatalf` message, if any (a `Fatalf` terminates the command). -/

/-- The slice of `os.FileInfo` the commands look at. -/
structure FileInfo where
  isDir : Bool
deriving DecidableEq

/-- One invocation of `x509.Generate(cn, hosts, certPath, keyPath, force)`. -/
structure GenCall where
  cn : String
  hosts : String
  certPath : String
  keyPath : String
  force : Bool
deriving DecidableEq

/-- Path pair computed by `generateOnboardCmd` (lines 51-54): squash the CN
and join with the onboarding database directory. -/
def onboardIdentityPaths (dir cn : String) : String × String :=
  let cnSquashed := squashCN cn
  (pathJoin dir (cnSquashed ++ ".pem"), pathJoin dir (cnSquashed ++ "-key.pem"))

/-- Path pair computed by `generateDeviceCmd` (lines 77-80): squash the CN
and join with the device database directory. -/
def deviceIdentityPaths (dir cn : String) : String × String :=
  let cnSquashed := squashCN cn
  (pathJoin dir (cnSquashed ++ ".pem"), pathJoin dir (cnSquashed ++ "-key.pem"))

/-- The `Run` body of `generateOnboardCmd`: returns the `x509.Generate`
call trace and the fatal message (if the command died). -/
def generateOnboardRun (stat : String → Option FileInfo) (generate : GenCall → Option String)
    (onboardingDatabasePath cn : String) (force : Bool) :
    List GenCall × Option String :=
  if onboardingDatabasePath = "" then ([], some "onboarding path must be set")
  else
    match stat onboardingDatabasePath with
    | none =>
      ([], some ("onboarding database path " ++ onboardingDatabasePath ++ " does not exist"))
    | some fi =>
      if !fi.isDir then
        ([], some ("onboarding database path " ++ onboardingDatabasePath ++ " is not a directory"))
      else
        let paths := onboardIdentityPaths onboardingDatabasePath cn
        let call : GenCall := ⟨cn, "", paths.1, paths.2, force⟩
        match generate call with
        | some e => ([call], some ("error generating key/cert: " ++ e))
        | none => ([call], none)

/-- The `Run` body of `generateDeviceCmd`. -/
def generateDeviceRun (stat : String → Option FileInfo) (generate : GenCall → Option String)
    (deviceDatabasePath cn : String) (force : Bool) :
    List GenCall × Option String :=
  if deviceDatabasePath = "" then ([], some "device path must be set")
  else
    match stat deviceDatabasePath with
    | none =>
      ([], some ("device database path " ++ deviceDatabasePath ++ " does not exist"))
    | some fi =>
      if !fi.isDir then
        ([], some ("device database path " ++ deviceDatabasePath ++ " is not a directory"))
      else
        let paths := deviceIdentityPaths deviceDatabasePath cn
        let call : GenCall := ⟨cn, "", paths.1, paths.2, force⟩
        match generate call with
        | some e => ([call], some ("error generating key/cert: " ++ e))
        | none => ([call], none)

/-!  The device storage aggregate (`pkg/driver/common/common.go`).

`BigData` is an interface whose only operation used by the `Add*` methods
is `Write(b []byte) (int, error)`.  We model a stream object by an
arbitrary state type `σ` together with a write method
`w : σ → Bytes → WriteResult σ` (dynamic dispatch of the interface);
a nil interface field is `none`.  The Go map `AppLogs` is modelled as an
association list with (unique) UUID keys, `none` for the nil map. -/

/-- Result of one `BigData.Write` call: the stream's successor state, the
`int` count and the `error`. -/
structure WriteResult (σ : Type) where
  stream : σ
  n : Int
  err : Option String
deriving DecidableEq

/-- A `Write` implementation for stream states of type `σ`. -/
abbrev WriteFn (σ : Type) := σ → Bytes → WriteResult σ

/-- First value stored under key `k` (Go map read `m[k]`). -/
def alistFind {σ : Type} : List (UUID × σ) → UUID → Option σ
  | [], _ => none
  | p :: rest, k => if p.1 = k then some p.2 else alistFind rest k

/-- Replace the value stored under key `k` (Go map write on an existing
key). -/
def alistStore {σ : Type} (m : List (UUID × σ)) (k : UUID) (v : σ) : List (UUID × σ) :=
  m.map (fun p => if p.1 = k then (k, v) else p)

/-- The `DeviceStorage` struct, fields in source order. -/
structure DeviceStorage (σ : Type) where
  Cert : Option Certificate
  Info : Option σ
  Metrics : Option σ
  Logs : Option σ
  Requests : Option σ
  FlowMessage : Option σ
  Certs : Option σ
  AppLogs : Option (List (UUID × σ))
  CurrentLog : Int
  Config : Bytes
  AttestCerts : Bytes
  StorageKeys : Bytes
  Serial : String
  Onboard : Option Certificate
  Options : Bytes
deriving DecidableEq

variable {σ : Type}

/-- Method `(*DeviceStorage).AddLogs`. -/
def DeviceStorage.AddLogs (d : DeviceStorage σ) (w : WriteFn σ) (b : Bytes) :
    DeviceStorage σ × Option String :=
  match d.Logs with
  | none => (d, some "AddLog: Logs struct not yet initialized")
  | some s =>
    let r := w s b
    ({ d with Logs := some r.stream }, r.err)

/-- Method `(*DeviceStorage).AddAppLog`. -/
def DeviceStorage.AddAppLog (d : DeviceStorage σ) (w : WriteFn σ) (instanceID : UUID)
    (b : Bytes) : DeviceStorage σ × Option String :=
  match d.AppLogs with
  | none => (d, some "AddAppLog: AppLogs struct not yet initialized")
  | some m =>
    match alistFind m instanceID with
    | none =>
      (d, some ("AddAppLog: AppLogs for instance " ++ uuidString instanceID ++
        " not yet initialized"))
    | some s =>
      let r := w s b
      ({ d with AppLogs := some (alistStore m instanceID r.stream) }, r.err)

/-- Method `(*DeviceStorage).AddInfo`. -/
def DeviceStorage.AddInfo (d : DeviceStorage σ) (w : WriteFn σ) (b : Bytes) :
    DeviceStorage σ × Option String :=
  match d.Info with
  | none => (d, some "AddInfo: Info struct not yet initialized")
  | some s =>
    let r := w s b
    ({ d with Info := some r.stream }, r.err)

/-- Method `(*DeviceStorage).AddMetrics`. -/
def DeviceStorage.AddMetrics (d : DeviceStorage σ) (w : WriteFn σ) (b : Bytes) :
    DeviceStorage σ × Option String :=
  match d.Metrics with
  | none => (d, some "AddMetrics: Metrics struct not yet initialized")
  | some s =>
    let r := w s b
    ({ d with Metrics := some r.stream }, r.err)

/-- Method `(*DeviceStorage).AddRequest`. -/
def DeviceStorage.AddRequest (d : DeviceStorage σ) (w : WriteFn σ) (b : Bytes) :
    DeviceStorage σ × Option String :=
  match d.Requests with
  | none => (d, some "AddRequest: Requests struct not yet initialized")
  | some s =>
    let r := w s b
    ({ d with Requests := some r.stream }, r.err)

/-- Method `(*DeviceStorage).AddFlowRecord`. -/
def DeviceStorage.AddFlowRecord (d : DeviceStorage σ) (w : WriteFn σ) (b : Bytes) :
    DeviceStorage σ × Option String :=
  match d.FlowMessage with
  | none => (d, some "AddFlowRecord: FlowMessage struct not yet initialized")
  | some s =>
    let r := w s b
    ({ d with FlowMessage := some r.stream }, r.err)

/-!  Attestation data model (`pkg/driver/common/common.go`).

Go slices that `encoding/json` distinguishes between nil (`null`) and
empty (`[]`) are modelled as `Option (List _)`; the nil pointer
`*PCRTemplate` as `Option PCRTemplate`.  `EventLog` carries the
`omitempty` tag, under which nil and empty slices behave identically, so a
plain list suffices there. -/

/-- `PCRValue`: one PCR measurement; `Value` may be the wildcard `"*"`. -/
structure PCRValue where
  Index : UInt32
  Value : String
deriving DecidableEq

/-- `PCRTemplate`: expected measurements for one EVE/firmware version
pair. -/
structure PCRTemplate where
  EveVersion : String
  FirmwareVersion : String
  PCRValues : Option (List PCRValue)
deriving DecidableEq

/-- `GlobalOptions`: controller-wide attestation policy. -/
structure GlobalOptions where
  EnforceTemplateAttestation : Bool
  PCRTemplates : Option (List PCRTemplate)
deriving DecidableEq

/-- Modelled from the spec: `attest.TpmEventLogEntry` is an external
protobuf type whose fields neither the sources nor any claim inspect; the
spec treats entries as "raw log entries ... kept for audit".  We keep an
entry as its serialized JSON object text. -/
structure TpmEventLogEntry where
  json : String
deriving DecidableEq

/-- `DeviceOptions`: per-device attestation session state. -/
structure DeviceOptions where
  Nonce : String
  IntegrityToken : String
  ReceivedPCRTemplate : Option PCRTemplate
  Attested : Bool
  EventLog : List TpmEventLogEntry
deriving DecidableEq

/-- The `PCRValues` slice of a template as ranged over by Go (`nil` ranges
as empty). -/
def templateValues (t : PCRTemplate) : List PCRValue :=
  t.PCRValues.getD []

/-- The `PCRTemplates` slice of the global options as ranged over by Go. -/
def globalTemplates (g : GlobalOptions) : List PCRTemplate :=
  g.PCRTemplates.getD []

/-- The reported `PCRValue` at a given index, if any. -/
def lookupPCRValue (vs : List PCRValue) (i : UInt32) : Option PCRValue :=
  vs.find? (fun v => v.Index = i)

/-- Modelled from the spec (§4.3): one template `PCRValue` is satisfied by
the reported values when the reported value at the same index equals it
exactly, or the template value is the literal wildcard `"*"`. -/
def pcrSatisfied (tv : PCRValue) (reported : List PCRValue) : Bool :=
  match lookupPCRValue reported tv.Index with
  | some rv => rv.Value = tv.Value || tv.Value = "*"
  | none => false

/-- Modelled from the spec (§4.3): a configured template matches the
received template when `eveVersion` and `firmwareVersion` are equal and
every `PCRValue` in the template is satisfied by the corresponding
reported value. -/
def templateMatches (tmpl reported : PCRTemplate) : Bool :=
  tmpl.EveVersion = reported.EveVersion &&
    tmpl.FirmwareVersion = reported.FirmwareVersion &&
    (templateValues tmpl).all (fun tv => pcrSatisfied tv (templateValues reported))

/-- Modelled from the spec (§4.3): `Evaluate` — the matching core of the
attestation policy engine, which is not part of the given sources (only its
data types are).  When enforcement is off it reports `matched = true`
unconditionally; otherwise it scans the configured templates in order and
the first match wins.  Returns the `matched` flag together with the winning
template. -/
def Evaluate (g : GlobalOptions) (reported : PCRTemplate) : Bool × Option PCRTemplate :=
  if !g.EnforceTemplateAttestation then (true, none)
  else
    match (globalTemplates g).find? (fun t => templateMatches t reported) with
    | some t => (true, some t)
    | none => (false, none)

/-!  JSON serialization (`encoding/json`) of the attestation records, as
produced by `json.Marshal` on the Go structs above: fields in declaration
order under their tag names, nil pointers and nil slices as `null`,
strings escaped the way Go's encoder does (including its HTML escapes). -/

/-- Go `encoding/json` escaping of one character. -/
def jsonEscapeChar (c : Char) : String :=
  if c = '"' then "\\\""
  else if c = '\\' then "\\\\"
  else if c = '\n' then "\\n"
  else if c = '\r' then "\\r"
  else if c = '\t' then "\\t"
  else if c = '<' then "\\u003c"
  else if c = '>' then "\\u003e"
  else if c = '&' then "\\u0026"
  else if c.toNat < 0x20 then
    "\\u00" ++ ⟨[hexDigitChar (c.toNat / 16), hexDigitChar (c.toNat % 16)]⟩
  else if c.toNat = 0x2028 then "\\u2028"
  else if c.toNat = 0x2029 then "\\u2029"
  else ⟨[c]⟩

/-- A JSON string literal. -/
def jsonString (s : String) : String :=
  "\"" ++ String.join (s.data.map jsonEscapeChar) ++ "\""

/-- A JSON boolean. -/
def jsonBool (b : Bool) : String :=
  if b then "true" else "false"

/-- A JSON array from already-encoded elements. -/
def jsonArray (elems : List String) : String :=
  "[" ++ String.intercalate "," elems ++ "]"

/-- `json.Marshal` of a `PCRValue`. -/
def jsonPCRValue (v : PCRValue) : String :=
  "\x7b\"index\":" ++ toString v.Index.toNat ++ ",\"value\":" ++ jsonString v.Value ++ "\x7d"

/-- `json.Marshal` of a `PCRTemplate`. -/
def jsonPCRTemplate (t : PCRTemplate) : String :=
  "\x7b\"eveVersion\":" ++ jsonString t.EveVersion ++
    ",\"firmwareVersion\":" ++ jsonString t.FirmwareVersion ++
    ",\"PCRValues\":" ++
    (match t.PCRValues with
     | none => "null"
     | some vs => jsonArray (vs.map jsonPCRValue)) ++ "\x7d"

/-- `json.Marshal` of a `DeviceOptions` (`eventLog` carries `omitempty`:
it is dropped when the slice is empty or nil). -/
def jsonDeviceOptions (o : DeviceOptions) : String :=
  "\x7b\"nonce\":" ++ jsonString o.Nonce ++
    ",\"integrityToken\":" ++ jsonString o.IntegrityToken ++
    ",\"receivedPCRTemplate\":" ++
    (match o.ReceivedPCRTemplate with
     | none => "null"
     | some t => jsonPCRTemplate t) ++
    ",\"attested\":" ++ jsonBool o.Attested ++
    (if o.EventLog.isEmpty then ""
     else ",\"eventLog\":" ++ jsonArray (o.EventLog.map (·.json))) ++ "\x7d"

/-- `json.Marshal` of a `GlobalOptions`. -/
def jsonGlobalOptions (g : GlobalOptions) : String :=
  "\x7b\"enforceTemplateAttestation\":" ++ jsonBool g.EnforceTemplateAttestation ++
    ",\"PCRTemplates\":" ++
    (match g.PCRTemplates with
     | none => "null"
     | some ts => jsonArray (ts.map jsonPCRTemplate)) ++ "\x7d"

/-!  Base-object constructors (`common.go` lines 185-208).  `json.Marshal`
returns a byte slice; we keep it as its UTF-8 string. -/

/-- `CreateBaseDeviceOptions`: marshals the zero `DeviceOptions` (empty
strings, nil pointer, `false`, nil slice); the UUID argument is unused
(`_` in the source). -/
def CreateBaseDeviceOptions (_ : UUID) : String :=
  jsonDeviceOptions ⟨"", "", none, false, []⟩

/-- `CreateBaseGlobalOptions`: marshals the zero `GlobalOptions`. -/
def CreateBaseGlobalOptions : String :=
  jsonGlobalOptions ⟨false, none⟩

/-!  `CreateBaseConfig` marshals `config.EdgeDevConfig{Id:
&config.UUIDandVersion{Uuid: u.String(), Version: "4"}}` with
`proto.Marshal`.  The `config` protobuf definitions are external to the
given sources, so the wire encoding is modelled from the spec ("a fresh
device configuration blob is an identity/version record seeded with
version \"4\" and no other fields set"): a length-delimited message field
holding the UUID string and the version string. -/

/-- Structural worker for `varint`: `fuel` bounds the number of emitted
groups; `fuel = n` always suffices since a nonzero `n` shrinks by a factor
of 128 per step, so the fuel-exhausted arm is never reached from
`varint`. -/
def varintAux : Nat → Nat → List UInt8
  | 0, n => [UInt8.ofNat n]
  | fuel + 1, n =>
    if n < 128 then [UInt8.ofNat n]
    else UInt8.ofNat (n % 128 + 128) :: varintAux fuel (n / 128)

/-- Protobuf base-128 varint of a natural number. -/
def varint (n : Nat) : List UInt8 :=
  varintAux n n

/-- A length-delimited (wire type 2) protobuf field. -/
def protoLenField (fieldNum : Nat) (body : List UInt8) : List UInt8 :=
  varint (fieldNum * 8 + 2) ++ varint body.length ++ body

/-- UTF-8 encoding of one scalar value (RFC 3629). -/
def utf8EncodeCharBytes (c : Char) : List UInt8 :=
  let n := c.toNat
  if n < 0x80 then [UInt8.ofNat n]
  else if n < 0x800 then
    [UInt8.ofNat (0xC0 + n / 64), UInt8.ofNat (0x80 + n % 64)]
  else if n < 0x10000 then
    [UInt8.ofNat (0xE0 + n / 4096), UInt8.ofNat (0x80 + (n / 64) % 64),
      UInt8.ofNat (0x80 + n % 64)]
  else
    [UInt8.ofNat (0xF0 + n / 262144), UInt8.ofNat (0x80 + (n / 4096) % 64),
      UInt8.ofNat (0x80 + (n / 64) % 64), UInt8.ofNat (0x80 + n % 64)]

/-- UTF-8 bytes of a string. -/
def utf8Bytes (s : String) : List UInt8 :=
  s.data.flatMap utf8EncodeCharBytes

/-- Modelled from the spec: `proto.Marshal` of the base
`config.EdgeDevConfig`, an `Id` message (field 1) holding the UUID string
(field 1) and version string (field 2). -/
def CreateBaseConfig (u : UUID) : List UInt8 :=
  protoLenField 1 (protoLenField 1 (utf8Bytes (uuidString u)) ++ protoLenField 2 (utf8Bytes "4"))

/-!  Helper lemmas. -/

/-- Reading a mapped list at an in-range position reads the original. -/
theorem getD_map_lt (f : Char → Char) (l : List Char) (i : Nat) (d : Char)
    (h : i < l.length) : (l.map f).getD i d = f (l.getD i d) := by
  induction l generalizing i with
  | nil => simp at h
  | cons x xs ih =>
    cases i with
    | zero => simp [List.getD]
    | succ j =>
      have hj : j < xs.length := by simpa using h
      simpa [List.getD] using ih j hj

/-- `squashChar` is idempotent. -/
theorem squashChar_idem (c : Char) : squashChar (squashChar c) = squashChar c := by
  unfold squashChar
  cases h : cnKeepChar c with
  | true => simp [h]
  | false => simp [h]

/-!  C1. -/

/-- C1 — counterexample: the claim states that every character outside
`[A-Za-z0-9.\-]` is replaced by `_`, so a sanitized name would consist of
letters, digits, `.`, `-` and `_` only.  But the Go regexp is built from a
raw string, so its class also contains the literal backslash: sanitizing
`"a\b"` keeps the backslash, which is none of the claimed characters. -/
theorem squashCN_keeps_backslash :
    squashCN "a\\b" = "a\\b" ∧
      ¬ (('\\').isAlpha = true ∨ ('\\').isDigit = true ∨ '\\' = '.' ∨ '\\' = '-' ∨ '\\' = '_') := by
  decide

/-- C1 (amended): sanitization replaces every character outside the class
`[a-zA-Z0-9\\.\\-]` — letters, digits, dot, hyphen and the literal
backslash — with `_`; characters inside the class are kept unchanged in
place, and every character of the result lies in the class or is `_`. -/
theorem squashCN_char_spec (cn : String) :
    (squashCN cn).data.length = cn.data.length ∧
    (∀ c, c ∈ (squashCN cn).data → cnKeepChar c = true ∨ c = '_') ∧
    (∀ i : Fin cn.data.length,
      (cnKeepChar (cn.data.getD i.val '_') = true →
        (squashCN cn).data.getD i.val '_' = cn.data.getD i.val '_') ∧
      (cnKeepChar (cn.data.getD i.val '_') = false →
        (squashCN cn).data.getD i.val '_' = '_')) := by
  refine ⟨by simp [squashCN], ?_, ?_⟩
  · intro c hc
    simp only [squashCN, List.mem_map] at hc
    obtain ⟨a, _, ha⟩ := hc
    cases h : cnKeepChar a with
    | true => left; rw [← ha]; simp [squashChar, h]
    | false => right; rw [← ha]; simp [squashChar, h]
  · intro i
    have hmap : (squashCN cn).data.getD i.val '_' = squashChar (cn.data.getD i.val '_') :=
      getD_map_lt squashChar cn.data i.val '_' i.isLt
    constructor
    · intro h
      rw [hmap]
      unfold squashChar
      rw [h]
      simp
    · intro h
      rw [hmap]
      unfold squashChar
      rw [h]
      simp

/-- C1 (amended) — witness: concrete instance of `squashCN_char_spec` at
`"a\b c"` (position 3 holds the space, which is squashed to `_`). -/
theorem squashCN_char_spec_witness :
    (squashCN "a\\b c").data.length = "a\\b c".data.length ∧
      (cnKeepChar 'a' = true ∨ 'a' = '_') ∧
      (squashCN "a\\b c").data.getD 3 '_' = '_' := by
  refine ⟨(squashCN_char_spec "a\\b c").1,
    (squashCN_char_spec "a\\b c").2.1 'a' (by decide), ?_⟩
  exact ((squashCN_char_spec "a\\b c").2.2 ⟨3, by decide⟩).2 (by decide)

/-!  C6. -/

/-- C6: CN sanitization is idempotent (squashing twice equals squashing
once; determinism is inherent, `squashCN` being a function of the CN
alone), and `"company a/b"` squashes to `"company_a_b"`. -/
theorem squashCN_idempotent :
    (∀ cn : String, squashCN (squashCN cn) = squashCN cn) ∧
      squashCN "company a/b" = "company_a_b" := by
  constructor
  · intro cn
    have hc : squashChar ∘ squashChar = squashChar := funext fun c => squashChar_idem c
    have h : (cn.data.map squashChar).map squashChar = cn.data.map squashChar := by
      rw [List.map_map, hc]
    exact congrArg String.mk h
  · decide

/-!  C7. -/

/-- C7: onboarding and device identity generation apply the identical
sanitize-and-join naming function — under any existing target directory
both commands issue one `x509.Generate` call whose certificate and key
paths are `Join(dir, squash(cn) + ".pem")` and
`Join(dir, squash(cn) + "-key.pem")`, so a CN maps to the same file pair
regardless of which generation path runs. -/
theorem identityPaths_agree (stat : String → Option FileInfo)
    (generate : GenCall → Option String) (dir cn : String) (force : Bool)
    (fi : FileInfo) (hne : dir ≠ "") (hstat : stat dir = some fi)
    (hdir : fi.isDir = true) :
    onboardIdentityPaths dir cn = deviceIdentityPaths dir cn ∧
    onboardIdentityPaths dir cn =
      (pathJoin dir (squashCN cn ++ ".pem"), pathJoin dir (squashCN cn ++ "-key.pem")) ∧
    (generateOnboardRun stat generate dir cn force).1 =
      [⟨cn, "", pathJoin dir (squashCN cn ++ ".pem"),
        pathJoin dir (squashCN cn ++ "-key.pem"), force⟩] ∧
    (generateDeviceRun stat generate dir cn force).1 =
      [⟨cn, "", pathJoin dir (squashCN cn ++ ".pem"),
        pathJoin dir (squashCN cn ++ "-key.pem"), force⟩] := by
  refine ⟨rfl, rfl, ?_, ?_⟩
  · unfold generateOnboardRun
    rw [if_neg hne, hstat]
    simp only [hdir, Bool.not_true, Bool.false_eq_true, if_false]
    cases generate ⟨cn, "", (onboardIdentityPaths dir cn).1,
        (onboardIdentityPaths dir cn).2, force⟩ <;>
      simp [onboardIdentityPaths]
  · unfold generateDeviceRun
    rw [if_neg hne, hstat]
    simp only [hdir, Bool.not_true, Bool.false_eq_true, if_false]
    cases generate ⟨cn, "", (deviceIdentityPaths dir cn).1,
        (deviceIdentityPaths dir cn).2, force⟩ <;>
      simp [deviceIdentityPaths]

/-- C7 — witness: concrete run of both commands over a one-directory
filesystem. -/
theorem identityPaths_agree_witness :
    (generateOnboardRun (fun _ => some ⟨true⟩) (fun _ => none)
        "db" "company a/b" false).1 =
      [⟨"company a/b", "", "db/company_a_b.pem", "db/company_a_b-key.pem", false⟩] ∧
    (generateDeviceRun (fun _ => some ⟨true⟩) (fun _ => none)
        "db" "company a/b" false).1 =
      [⟨"company a/b", "", "db/company_a_b.pem", "db/company_a_b-key.pem", false⟩] := by
  have h := identityPaths_agree (fun _ => some ⟨true⟩) (fun _ => none)
    "db" "company a/b" false ⟨true⟩ (by decide) rfl rfl
  exact ⟨h.2.2.1.trans (by decide), h.2.2.2.trans (by decide)⟩

/-!  C8. -/

/-- C8: both generate commands check their precondition first — when the
database path is empty, does not exist, or is not a directory, the command
dies with a fatal message and the `x509.Generate` call trace is empty (no
certificate material is produced). -/
theorem generate_precondition_guard (stat : String → Option FileInfo)
    (generate : GenCall → Option String) (p cn : String) (force : Bool)
    (h : p = "" ∨ stat p = none ∨ ∃ fi, stat p = some fi ∧ fi.isDir = false) :
    ((generateOnboardRun stat generate p cn force).1 = [] ∧
      (generateOnboardRun stat generate p cn force).2.isSome = true) ∧
    ((generateDeviceRun stat generate p cn force).1 = [] ∧
      (generateDeviceRun stat generate p cn force).2.isSome = true) := by
  by_cases hp : p = ""
  · simp [generateOnboardRun, generateDeviceRun, hp]
  · rcases h with h | h | ⟨fi, hfi, hdir⟩
    · exact absurd h hp
    · simp [generateOnboardRun, generateDeviceRun, hp, h]
    · simp [generateOnboardRun, generateDeviceRun, hp, hfi, hdir]

/-- C8 — witness: concrete empty filesystem, nonempty path. -/
theorem generate_precondition_guard_witness :
    ((generateOnboardRun (fun _ => none) (fun _ => none) "db" "cn" false).1 = [] ∧
      (generateOnboardRun (fun _ => none) (fun _ => none) "db" "cn" false).2.isSome = true) ∧
    ((generateDeviceRun (fun _ => none) (fun _ => none) "db" "cn" false).1 = [] ∧
      (generateDeviceRun (fun _ => none) (fun _ => none) "db" "cn" false).2.isSome = true) :=
  generate_precondition_guard (fun _ => none) (fun _ => none) "db" "cn" false
    (Or.inr (Or.inl rfl))

/-!  Concrete instances used by the aggregate witnesses: an in-memory
stream (a list of written payloads) and a fully provisioned aggregate. -/

/-- In-memory `Write`: append the payload and report success. -/
def memWrite : WriteFn (List Bytes) := fun s b => ⟨s ++ [b], (b.length : Int), none⟩

/-- The all-zero UUID. -/
def uuid0 : UUID := ⟨List.replicate 16 0⟩

/-- A UUID distinct from `uuid0`. -/
def uuid1 : UUID := ⟨1 :: List.replicate 15 0⟩

/-- A fully provisioned aggregate over in-memory streams whose `AppLogs`
map is empty. -/
def sampleStorage : DeviceStorage (List Bytes) :=
  ⟨none, some [], some [], some [], some [], some [], some [], some [], 0,
    [], [], [], "", none, []⟩

/-- Like `sampleStorage` but with an `AppLogs` substream provisioned for
`uuid0`. -/
def sampleStorageApp : DeviceStorage (List Bytes) :=
  ⟨none, some [], some [], some [], some [], some [], some [], some [(uuid0, [])], 0,
    [], [], [], "", none, []⟩

/-- The stream stored for key `k`: `none` when the `AppLogs` map is nil or
holds no entry for `k`. -/
def appLogStream (d : DeviceStorage σ) (k : UUID) : Option σ :=
  match d.AppLogs with
  | none => none
  | some m => alistFind m k

/-- Storing under one key leaves every other key's entry unchanged. -/
theorem alistFind_alistStore_ne (m : List (UUID × σ)) (iid k : UUID) (v : σ)
    (hk : k ≠ iid) : alistFind (alistStore m iid v) k = alistFind m k := by
  induction m with
  | nil => rfl
  | cons p rest ih =>
    obtain ⟨pk, pv⟩ := p
    simp only [alistStore, List.map_cons] at ih ⊢
    by_cases hp : pk = iid
    · rw [if_pos hp]
      have hik : ¬ (iid = k) := fun h => hk h.symm
      have hpk : ¬ (pk = k) := fun h => hk (h.symm.trans hp)
      simp only [alistFind]
      rw [if_neg hik, if_neg hpk]
      exact ih
    · rw [if_neg hp]
      simp only [alistFind]
      by_cases hpk : pk = k
      · rw [if_pos hpk, if_pos hpk]
      · rw [if_neg hpk, if_neg hpk]
        exact ih

/-!  C3. -/

/-- C3: `AddAppLog` fails when the `AppLogs` map is nil, fails when the
map holds no entry for the instance UUID — in both cases returning the
aggregate unchanged, creating no substream — and otherwise delegates the
payload to that instance's stream `Write`, storing the stream's successor
state under the same key and returning `Write`'s error. -/
theorem addAppLog_spec (σ : Type) (w : WriteFn σ) (d : DeviceStorage σ)
    (instanceID : UUID) (b : Bytes) :
    (d.AppLogs = none →
      d.AddAppLog w instanceID b =
        (d, some "AddAppLog: AppLogs struct not yet initialized")) ∧
    (∀ m, d.AppLogs = some m → alistFind m instanceID = none →
      d.AddAppLog w instanceID b =
        (d, some ("AddAppLog: AppLogs for instance " ++ uuidString instanceID ++
          " not yet initialized"))) ∧
    (∀ m s, d.AppLogs = some m → alistFind m instanceID = some s →
      d.AddAppLog w instanceID b =
        ({ d with AppLogs := some (alistStore m instanceID (w s b).stream) },
          (w s b).err)) := by
  refine ⟨?_, ?_, ?_⟩
  · intro h
    simp [DeviceStorage.AddAppLog, h]
  · intro m hm hfind
    simp [DeviceStorage.AddAppLog, hm, hfind]
  · intro m s hm hfind
    simp [DeviceStorage.AddAppLog, hm, hfind]

/-- C3 — witness: concrete `NotFound` case (provisioned map, unknown
instance). -/
theorem addAppLog_spec_witness :
    sampleStorage.AddAppLog memWrite uuid0 [1] =
      (sampleStorage,
        some "AddAppLog: AppLogs for instance 00000000-0000-0000-0000-000000000000 not yet initialized") := by
  have h := (addAppLog_spec (List Bytes) memWrite sampleStorage uuid0 [1]).2.1 [] rfl rfl
  exact h.trans (by decide)

/-!  C4. -/

/-- C4: each of `AddLogs`, `AddInfo`, `AddMetrics`, `AddRequest`,
`AddFlowRecord` fails with its `not yet initialized` error exactly when
the corresponding stream field is nil (leaving the aggregate unchanged),
and otherwise performs one `Write` of the payload on that stream, storing
the successor stream state and returning `Write`'s error unchanged. -/
theorem addOps_uninit_or_delegate (σ : Type) (w : WriteFn σ) (d : DeviceStorage σ)
    (b : Bytes) :
    ((d.Logs = none →
        d.AddLogs w b = (d, some "AddLog: Logs struct not yet initialized")) ∧
      (∀ s, d.Logs = some s →
        d.AddLogs w b = ({ d with Logs := some (w s b).stream }, (w s b).err))) ∧
    ((d.Info = none →
        d.AddInfo w b = (d, some "AddInfo: Info struct not yet initialized")) ∧
      (∀ s, d.Info = some s →
        d.AddInfo w b = ({ d with Info := some (w s b).stream }, (w s b).err))) ∧
    ((d.Metrics = none →
        d.AddMetrics w b = (d, some "AddMetrics: Metrics struct not yet initialized")) ∧
      (∀ s, d.Metrics = some s →
        d.AddMetrics w b = ({ d with Metrics := some (w s b).stream }, (w s b).err))) ∧
    ((d.Requests = none →
        d.AddRequest w b = (d, some "AddRequest: Requests struct not yet initialized")) ∧
      (∀ s, d.Requests = some s →
        d.AddRequest w b = ({ d with Requests := some (w s b).stream }, (w s b).err))) ∧
    ((d.FlowMessage = none →
        d.AddFlowRecord w b =
          (d, some "AddFlowRecord: FlowMessage struct not yet initialized")) ∧
      (∀ s, d.FlowMessage = some s →
        d.AddFlowRecord w b =
          ({ d with FlowMessage := some (w s b).stream }, (w s b).err))) := by
  refine ⟨⟨?_, ?_⟩, ⟨?_, ?_⟩, ⟨?_, ?_⟩, ⟨?_, ?_⟩, ⟨?_, ?_⟩⟩ <;>
    first
    | (intro h; simp [DeviceStorage.AddLogs, DeviceStorage.AddInfo,
        DeviceStorage.AddMetrics, DeviceStorage.AddRequest,
        DeviceStorage.AddFlowRecord, h])
    | (intro s hs; simp [DeviceStorage.AddLogs, DeviceStorage.AddInfo,
        DeviceStorage.AddMetrics, DeviceStorage.AddRequest,
        DeviceStorage.AddFlowRecord, hs])

/-- C4 — witness: a concrete successful `AddLogs` on the provisioned
in-memory aggregate. -/
theorem addOps_uninit_or_delegate_witness :
    sampleStorage.AddLogs memWrite [7] =
      ({ sampleStorage with Logs := some [[7]] }, none) := by
  have h := (addOps_uninit_or_delegate (List Bytes) memWrite sampleStorage [7]).1.2 [] rfl
  exact h.trans (by decide)

/-!  C5. -/

/-- Equality of all non-stream fields of two aggregates (identity,
configuration and bookkeeping fields). -/
def nonStreamFieldsEq (d d' : DeviceStorage σ) : Prop :=
  d'.Cert = d.Cert ∧ d'.CurrentLog = d.CurrentLog ∧ d'.Config = d.Config ∧
    d'.AttestCerts = d.AttestCerts ∧ d'.StorageKeys = d.StorageKeys ∧
    d'.Serial = d.Serial ∧ d'.Onboard = d.Onboard ∧ d'.Options = d.Options

/-- C5: every `AddX` call — successful or not — leaves every field of the
aggregate other than the single targeted stream unchanged; for
`AddAppLog`, in addition, every non-targeted app-log substream is
unchanged. -/
theorem addOps_frame (σ : Type) (w : WriteFn σ) (d : DeviceStorage σ) (b : Bytes)
    (instanceID : UUID) :
    (nonStreamFieldsEq d (d.AddLogs w b).1 ∧ (d.AddLogs w b).1.Info = d.Info ∧
      (d.AddLogs w b).1.Metrics = d.Metrics ∧ (d.AddLogs w b).1.Requests = d.Requests ∧
      (d.AddLogs w b).1.FlowMessage = d.FlowMessage ∧ (d.AddLogs w b).1.Certs = d.Certs ∧
      (d.AddLogs w b).1.AppLogs = d.AppLogs) ∧
    (nonStreamFieldsEq d (d.AddInfo w b).1 ∧ (d.AddInfo w b).1.Logs = d.Logs ∧
      (d.AddInfo w b).1.Metrics = d.Metrics ∧ (d.AddInfo w b).1.Requests = d.Requests ∧
      (d.AddInfo w b).1.FlowMessage = d.FlowMessage ∧ (d.AddInfo w b).1.Certs = d.Certs ∧
      (d.AddInfo w b).1.AppLogs = d.AppLogs) ∧
    (nonStreamFieldsEq d (d.AddMetrics w b).1 ∧ (d.AddMetrics w b).1.Logs = d.Logs ∧
      (d.AddMetrics w b).1.Info = d.Info ∧ (d.AddMetrics w b).1.Requests = d.Requests ∧
      (d.AddMetrics w b).1.FlowMessage = d.FlowMessage ∧
      (d.AddMetrics w b).1.Certs = d.Certs ∧ (d.AddMetrics w b).1.AppLogs = d.AppLogs) ∧
    (nonStreamFieldsEq d (d.AddRequest w b).1 ∧ (d.AddRequest w b).1.Logs = d.Logs ∧
      (d.AddRequest w b).1.Info = d.Info ∧ (d.AddRequest w b).1.Metrics = d.Metrics ∧
      (d.AddRequest w b).1.FlowMessage = d.FlowMessage ∧
      (d.AddRequest w b).1.Certs = d.Certs ∧ (d.AddRequest w b).1.AppLogs = d.AppLogs) ∧
    (nonStreamFieldsEq d (d.AddFlowRecord w b).1 ∧
      (d.AddFlowRecord w b).1.Logs = d.Logs ∧ (d.AddFlowRecord w b).1.Info = d.Info ∧
      (d.AddFlowRecord w b).1.Metrics = d.Metrics ∧
      (d.AddFlowRecord w b).1.Requests = d.Requests ∧
      (d.AddFlowRecord w b).1.Certs = d.Certs ∧
      (d.AddFlowRecord w b).1.AppLogs = d.AppLogs) ∧
    (nonStreamFieldsEq d (d.AddAppLog w instanceID b).1 ∧
      (d.AddAppLog w instanceID b).1.Logs = d.Logs ∧
      (d.AddAppLog w instanceID b).1.Info = d.Info ∧
      (d.AddAppLog w instanceID b).1.Metrics = d.Metrics ∧
      (d.AddAppLog w instanceID b).1.Requests = d.Requests ∧
      (d.AddAppLog w instanceID b).1.FlowMessage = d.FlowMessage ∧
      (d.AddAppLog w instanceID b).1.Certs = d.Certs ∧
      (∀ k, k ≠ instanceID →
        appLogStream (d.AddAppLog w instanceID b).1 k = appLogStream d k)) := by
  refine ⟨?_, ?_, ?_, ?_, ?_, ?_⟩
  · cases h : d.Logs <;> simp [DeviceStorage.AddLogs, nonStreamFieldsEq, h]
  · cases h : d.Info <;> simp [DeviceStorage.AddInfo, nonStreamFieldsEq, h]
  · cases h : d.Metrics <;> simp [DeviceStorage.AddMetrics, nonStreamFieldsEq, h]
  · cases h : d.Requests <;> simp [DeviceStorage.AddRequest, nonStreamFieldsEq, h]
  · cases h : d.FlowMessage <;> simp [DeviceStorage.AddFlowRecord, nonStreamFieldsEq, h]
  · cases h : d.AppLogs with
    | none => simp [DeviceStorage.AddAppLog, nonStreamFieldsEq, h, appLogStream]
    | some m =>
      cases hf : alistFind m instanceID with
      | none => simp [DeviceStorage.AddAppLog, nonStreamFieldsEq, h, hf, appLogStream]
      | some s =>
        refine ⟨?_, ?_, ?_, ?_, ?_, ?_, ?_, ?_⟩ <;>
          simp [DeviceStorage.AddAppLog, nonStreamFieldsEq, h, hf, appLogStream]
        intro k hk
        exact alistFind_alistStore_ne m instanceID k _ hk

/-- C5 — witness: a concrete `AddAppLog` to `uuid0` leaves the `uuid1`
substream (and the identity fields) unchanged. -/
theorem addOps_frame_witness :
    appLogStream (sampleStorageApp.AddAppLog memWrite uuid0 [2]).1 uuid1 =
      appLogStream sampleStorageApp uuid1 ∧
    nonStreamFieldsEq sampleStorageApp (sampleStorageApp.AddAppLog memWrite uuid0 [2]).1 := by
  have h := addOps_frame (List Bytes) memWrite sampleStorageApp [2] uuid0
  exact ⟨h.2.2.2.2.2.2.2.2.2.2.2.2 uuid1 (by decide), h.2.2.2.2.2.1⟩

/-!  C2. -/

/-- A successful `find?` identifies the first position satisfying the
predicate: everything strictly before it fails the predicate. -/
theorem find?_first {α : Type} (p : α → Bool) :
    ∀ (l : List α) (a : α), l.find? p = some a →
      ∃ i : Fin l.length, l.get i = a ∧ p a = true ∧
        ∀ j : Fin l.length, j.val < i.val → p (l.get j) = false := by
  intro l
  induction l with
  | nil => intro a h; simp at h
  | cons x xs ih =>
    intro a h
    cases hp : p x with
    | true =>
      rw [List.find?_cons_of_pos _ hp] at h
      cases h
      exact ⟨⟨0, Nat.succ_pos _⟩, rfl, hp, fun j hj => absurd hj (Nat.not_lt_zero _)⟩
    | false =>
      rw [List.find?_cons_of_neg _ (by simp [hp])] at h
      obtain ⟨i, hget, hpa, hprev⟩ := ih a h
      refine ⟨⟨i.val + 1, Nat.succ_lt_succ i.isLt⟩, hget, hpa, ?_⟩
      intro j hj
      cases j with
      | mk jv hjlt =>
        cases jv with
        | zero => exact hp
        | succ jv' =>
          exact hprev ⟨jv', Nat.lt_of_succ_lt_succ hjlt⟩ (Nat.lt_of_succ_lt_succ hj)

/-- Unfolding of `pcrSatisfied` into the spec's wording. -/
theorem pcrSatisfied_iff (tv : PCRValue) (rep : List PCRValue) :
    pcrSatisfied tv rep = true ↔
      ∃ rv, lookupPCRValue rep tv.Index = some rv ∧
        (rv.Value = tv.Value ∨ tv.Value = "*") := by
  unfold pcrSatisfied
  cases h : lookupPCRValue rep tv.Index with
  | none => simp [h]
  | some rv => simp [h]

/-- Unfolding of `templateMatches` into the spec's wording. -/
theorem templateMatches_iff (tmpl r : PCRTemplate) :
    templateMatches tmpl r = true ↔
      (tmpl.EveVersion = r.EveVersion ∧ tmpl.FirmwareVersion = r.FirmwareVersion ∧
        ∀ tv ∈ templateValues tmpl, ∃ rv,
          lookupPCRValue (templateValues r) tv.Index = some rv ∧
            (rv.Value = tv.Value ∨ tv.Value = "*")) := by
  unfold templateMatches
  simp only [Bool.and_eq_true, decide_eq_true_eq, List.all_eq_true]
  constructor
  · rintro ⟨⟨h1, h2⟩, h3⟩
    exact ⟨h1, h2, fun tv htv => (pcrSatisfied_iff tv _).mp (h3 tv htv)⟩
  · rintro ⟨h1, h2, h3⟩
    exact ⟨⟨h1, h2⟩, fun tv htv => (pcrSatisfied_iff tv _).mpr (h3 tv htv)⟩

/-- C2: with enforcement on, `Evaluate` reports a match exactly when some
configured template matches the reported template; a template matches
exactly when the versions agree and every template `PCRValue` is satisfied
by the reported value at the same index (equality or the `"*"` wildcard);
and the winning template is the first match in list order — every earlier
template fails to match. -/
theorem evaluate_first_match_spec (g : GlobalOptions) (r : PCRTemplate)
    (henf : g.EnforceTemplateAttestation = true) :
    ((Evaluate g r).1 = true ↔ ∃ t ∈ globalTemplates g, templateMatches t r = true) ∧
    (∀ tmpl, templateMatches tmpl r = true ↔
      (tmpl.EveVersion = r.EveVersion ∧ tmpl.FirmwareVersion = r.FirmwareVersion ∧
        ∀ tv ∈ templateValues tmpl, ∃ rv,
          lookupPCRValue (templateValues r) tv.Index = some rv ∧
            (rv.Value = tv.Value ∨ tv.Value = "*"))) ∧
    (∀ t, (Evaluate g r).2 = some t →
      (Evaluate g r).1 = true ∧
      ∃ i : Fin (globalTemplates g).length, (globalTemplates g).get i = t ∧
        templateMatches t r = true ∧
        ∀ j : Fin (globalTemplates g).length, j.val < i.val →
          templateMatches ((globalTemplates g).get j) r = false) := by
  have hev : Evaluate g r =
      (match (globalTemplates g).find? (fun t => templateMatches t r) with
       | some t => (true, some t)
       | none => (false, none)) := by
    unfold Evaluate
    rw [henf]
    rfl
  refine ⟨?_, fun tmpl => templateMatches_iff tmpl r, ?_⟩
  · rw [hev]
    cases hf : (globalTemplates g).find? (fun t => templateMatches t r) with
    | none =>
      simp only [List.find?_eq_none] at hf
      constructor
      · intro h
        simp at h
      · rintro ⟨t, ht, hmt⟩
        exact absurd hmt (by simpa using hf t ht)
    | some t0 =>
      constructor
      · intro _
        refine ⟨t0, List.mem_of_find?_eq_some hf, ?_⟩
        simpa using List.find?_some hf
      · intro _
        rfl
  · intro t ht
    rw [hev] at ht ⊢
    cases hf : (globalTemplates g).find? (fun t => templateMatches t r) with
    | none => rw [hf] at ht; simp at ht
    | some t0 =>
      rw [hf] at ht
      simp at ht
      subst ht
      obtain ⟨i, hget, hpa, hprev⟩ := find?_first _ _ _ hf
      refine ⟨rfl, i, hget, ?_, hprev⟩
      simpa using hpa

/-- The wildcard template of spec §8. -/
def tmplExample : PCRTemplate := ⟨"1.0", "2.0", some [⟨0, "*"⟩, ⟨1, "abc"⟩]⟩

/-- The reported template of spec §8 that the wildcard template accepts. -/
def reportedExample : PCRTemplate := ⟨"1.0", "2.0", some [⟨0, "zzz"⟩, ⟨1, "abc"⟩]⟩

/-- A policy enforcing the single wildcard template. -/
def gExample : GlobalOptions := ⟨true, some [tmplExample]⟩

/-- C2 — witness: the spec §8 wildcard example evaluates to a match. -/
theorem evaluate_first_match_spec_witness :
    (Evaluate gExample reportedExample).1 = true :=
  ((evaluate_first_match_spec gExample reportedExample rfl).1).mpr
    ⟨tmplExample, by decide, by decide⟩

/-!  C9. -/

/-- C9: the base-object constructors produce the documented empty starting
states — for every device UUID, `CreateBaseDeviceOptions` serializes a
`DeviceOptions` with empty nonce, empty integrity token, nil received
template, `attested = false` and empty event log, and
`CreateBaseGlobalOptions` serializes a `GlobalOptions` with
`enforceTemplateAttestation = false` and no templates; the concrete JSON
byte strings are spelled out. -/
theorem createBase_empty_states :
    (∀ u : UUID, CreateBaseDeviceOptions u = jsonDeviceOptions ⟨"", "", none, false, []⟩) ∧
    (∀ u : UUID, CreateBaseDeviceOptions u =
      "\x7b\"nonce\":\"\",\"integrityToken\":\"\",\"receivedPCRTemplate\":null,\"attested\":false\x7d") ∧
    CreateBaseGlobalOptions = jsonGlobalOptions ⟨false, none⟩ ∧
    CreateBaseGlobalOptions =
      "\x7b\"enforceTemplateAttestation\":false,\"PCRTemplates\":null\x7d" := by
  refine ⟨fun _ => rfl, ?_, rfl, by decide⟩
  intro u
  have h : CreateBaseDeviceOptions u = jsonDeviceOptions ⟨"", "", none, false, []⟩ := rfl
  rw [h]
  decide

/-!  C10. -/

/-- C10: `CreateBaseDeviceOptions` ignores its UUID argument — any two
UUIDs give byte-identical output — unlike `CreateBaseConfig`, which embeds
the UUID string and so differs on distinct UUIDs. -/
theorem createBaseDeviceOptions_uuid_independent :
    (∀ u1 u2 : UUID, CreateBaseDeviceOptions u1 = CreateBaseDeviceOptions u2) ∧
      CreateBaseConfig uuid0 ≠ CreateBaseConfig uuid1 :=
  ⟨fun _ _ => rfl, by decide⟩

end Adam

example : Adam.squashCN "company a/b" = "company_a_b" := by decide
example : Adam.pathJoin "db" "company_a_b.pem" = "db/company_a_b.pem" := by decide
example : Adam.pathClean "a//b/../c" = "a/c" := by decide
example : Adam.uuidString ⟨List.replicate 16 0⟩ = "00000000-0000-0000-0000-000000000000" := by decide
